import Mathlib

/-! Custom scope service of pocket-id.

A shallow embedding of `backend/internal/service/custom_scope_service.go`
(`GetCustomScopesForUser`, `GetAllCustomScopes`, `ValidateCustomScopes`) and
theorems about the scopes a user is granted.

Conventions of the embedding:

* a Go slice of strings is an `Option (List String)`: `none` is the nil slice,
  `some []` the empty slice made by `make`;
* a Go `error` is an `Option Error`: `none` is the nil error;
* a Go call either returns its pair of results or panics (`GoResult`);
* the map `scopeSet` is the list of its distinct keys, and the order in which
  `range` walks it is given by a `MapOrder`, any rearrangement of the keys.
-/

namespace CustomScope

/-! ## Data model -/

/-- A data-access error, carried around unchanged by the service. -/
structure Error where
  msg : String
deriving DecidableEq, Repr

/-- The `context.Context` threaded through every read. -/
structure Context where
  id : Nat
deriving DecidableEq, Repr

/-- Modelled from the spec: the type `model.CustomClaim`, whose declaration is
not among the sources. A claim has a key (the scope name it contributes) and
belongs to a user or to a group. -/
structure CustomClaim where
  Key : String
  UserID : Option String
  UserGroupID : Option String
deriving DecidableEq, Repr

/-- Modelled from the spec: the type `model.UserGroup`, whose declaration is
not among the sources. A group has an identifier and an ordered sequence of
claims. -/
structure UserGroup where
  ID : String
  CustomClaims : List CustomClaim
deriving DecidableEq, Repr

/-- Modelled from the spec: the data-access handle `*gorm.DB`, seen through the
three reads the service issues on it. Each read either fails with an error or
yields its rows: a value of this type is a handle on which the reads return. A
handle on which a read does not return (the nil handle, or a `gorm.DB` that was
never opened) is not a value of this type.
* `findClaims ctx userID`: the claims owned directly by the user
  (`Where("user_id = ?", userID).Find(&customClaims)`);
* `findGroups ctx userID`: the groups the user belongs to, each with its claims
  (`Preload("CustomClaims").Joins(...).Where(...).Find(&userGroups)`);
* `pluckKeys ctx`: the keys of the claims table grouped by key, most used first
  (`Model(&model.CustomClaim{}).Group("key").Order("COUNT(*) DESC").Pluck`),
  as the slice left in the destination and the error of the query. -/
structure DB where
  findClaims : Context → String → Except Error (List CustomClaim)
  findGroups : Context → String → Except Error (List UserGroup)
  pluckKeys : Context → Option (List String) × Option Error

/-- The service: `type CustomScopeService struct { db *gorm.DB }`. -/
structure CustomScopeService where
  db : Option DB

/-- The constructor `NewCustomScopeService`. -/
def NewCustomScopeService (db : Option DB) : CustomScopeService :=
  { db := db }

/-- What a call of a Go function with results `([]string, error)` does: it
returns the pair, or it panics. -/
inductive GoResult where
  | ret (scopes : Option (List String)) (err : Option Error)
  | panic
deriving DecidableEq, Repr

/-! ## The map `scopeSet` -/

/-- The statement `scopeSet[key] = struct{}{}` on a map held as the list of its
distinct keys: a key already present leaves the map as it is. -/
def mapInsert (scopeSet : List String) (key : String) : List String :=
  if key ∈ scopeSet then scopeSet else scopeSet ++ [key]

/-- The order in which a `range` over a Go map yields the keys: unspecified, so
any function that rearranges the keys. -/
structure MapOrder where
  order : List String → List String
  order_perm : ∀ keys, (order keys).Perm keys

/-- The iteration that yields the keys in the order they were inserted. -/
def MapOrder.insertion : MapOrder :=
  { order := fun keys => keys, order_perm := fun keys => List.Perm.refl keys }

/-- The iteration that yields the keys last inserted first. -/
def MapOrder.reversed : MapOrder :=
  { order := List.reverse, order_perm := fun keys => List.reverse_perm keys }

/-! ## GetCustomScopesForUser -/

/-- Lines 48-50: `for _, claim := range customClaims { scopeSet[claim.Key] = struct{}{} }`. -/
def addClaimKeys (scopeSet : List String) : List CustomClaim → List String
  | [] => scopeSet
  | claim :: rest => addClaimKeys (mapInsert scopeSet claim.Key) rest

/-- Lines 53-57: the loop over the groups, with the loop over each group's claims inside. -/
def addGroupClaimKeys (scopeSet : List String) : List UserGroup → List String
  | [] => scopeSet
  | group :: rest => addGroupClaimKeys (addClaimKeys scopeSet group.CustomClaims) rest

/-- Lines 45-57: the map after both passes. -/
def collectScopeSet (customClaims : List CustomClaim) (userGroups : List UserGroup) :
    List String :=
  addGroupClaimKeys (addClaimKeys [] customClaims) userGroups

/-- Lines 60-63: `scopes := make([]string, 0, len(scopeSet))` followed by the
`range` over the map that appends every key. -/
def appendKeys (scopes : List String) : List String → List String
  | [] => scopes
  | scope :: rest => appendKeys (scopes ++ [scope]) rest

/-- Lines 59-63: the conversion of the map to a slice, in the order `mo` of the iteration. -/
def toSlice (mo : MapOrder) (scopeSet : List String) : List String :=
  appendKeys [] (mo.order scopeSet)

/-- The method `GetCustomScopesForUser` (lines 19-66). The receiver is not used by the
body; `tx` is the handle of the caller, and a method call on a nil handle
dereferences it. -/
def GetCustomScopesForUser (_s : CustomScopeService) (mo : MapOrder) (ctx : Context)
    (userID : String) (tx : Option DB) : GoResult :=
  match tx with
  | none => GoResult.panic
  | some db =>
    match db.findClaims ctx userID with
    | Except.error err => GoResult.ret none (some err)
    | Except.ok customClaims =>
      match db.findGroups ctx userID with
      | Except.error err => GoResult.ret none (some err)
      | Except.ok userGroups =>
        GoResult.ret (some (toSlice mo (collectScopeSet customClaims userGroups))) none

/-! ## GetAllCustomScopes -/

/-- The method `GetAllCustomScopes` (lines 69-81): the query runs on the store of the
service, and the slice and the error are returned as the query left them. -/
def GetAllCustomScopes (s : CustomScopeService) (ctx : Context) : GoResult :=
  match s.db with
  | none => GoResult.panic
  | some db => GoResult.ret (db.pluckKeys ctx).1 (db.pluckKeys ctx).2

/-! ## ValidateCustomScopes -/

/-- Line 91: the standard scopes. -/
def standardScopes : List String := ["openid", "profile", "email", "groups"]

/-- Lines 97-102: the scan of the available scopes for one requested scope,
which appends the requested scope at the first match and stops. -/
def scanAvailable (requestedScope : String) (validScopes : List String) :
    List String → List String
  | [] => validScopes
  | availableScope :: rest =>
    if requestedScope = availableScope then validScopes ++ [requestedScope]
    else scanAvailable requestedScope validScopes rest

/-- Lines 96-103: the loop over the requested scopes. -/
def filterRequested (availableScopes : List String) (validScopes : List String) :
    List String → List String
  | [] => validScopes
  | requestedScope :: rest =>
    filterRequested availableScopes (scanAvailable requestedScope validScopes availableScopes) rest

/-- The method `ValidateCustomScopes` (lines 84-106). The requested scopes are
only ranged over, so they are given as the list of their entries; `append` on a
nil slice starts from no entry. -/
def ValidateCustomScopes (s : CustomScopeService) (mo : MapOrder) (ctx : Context)
    (userID : String) (requestedScopes : List String) (tx : Option DB) : GoResult :=
  match GetCustomScopesForUser s mo ctx userID tx with
  | GoResult.panic => GoResult.panic
  | GoResult.ret _ (some err) => GoResult.ret none (some err)
  | GoResult.ret availableScopes none =>
    GoResult.ret
      (some (filterRequested (availableScopes.getD [] ++ standardScopes) []
        requestedScopes))
      none

/-! ## The vocabulary of the specification -/

/-- The string `s` is the key of one of the claims `C`. -/
def IsClaimKey (C : List CustomClaim) (s : String) : Prop :=
  ∃ c ∈ C, c.Key = s

/-- The string `s` is the key of a claim of one of the groups `G`. -/
def IsGroupClaimKey (G : List UserGroup) (s : String) : Prop :=
  ∃ g ∈ G, ∃ c ∈ g.CustomClaims, c.Key = s

/-- The string `s` is a custom scope of a user with own claims `C` and groups `G`. -/
def IsCustomScope (C : List CustomClaim) (G : List UserGroup) (s : String) : Prop :=
  IsClaimKey C s ∨ IsGroupClaimKey G s

/-- The string `s` is one of `openid`, `profile`, `email`, `groups`. -/
def IsStandardScope (s : String) : Prop :=
  s = "openid" ∨ s = "profile" ∨ s = "email" ∨ s = "groups"

/-- The string `s` is granted to a user with own claims `C` and groups `G`: it is a
custom scope of the user or a standard scope. -/
def IsGranted (C : List CustomClaim) (G : List UserGroup) (s : String) : Prop :=
  IsCustomScope C G s ∨ IsStandardScope s

instance (C : List CustomClaim) (s : String) : Decidable (IsClaimKey C s) := by
  unfold IsClaimKey; infer_instance

instance (G : List UserGroup) (s : String) : Decidable (IsGroupClaimKey G s) := by
  unfold IsGroupClaimKey; infer_instance

instance (C : List CustomClaim) (G : List UserGroup) (s : String) :
    Decidable (IsCustomScope C G s) := by
  unfold IsCustomScope; infer_instance

instance (s : String) : Decidable (IsStandardScope s) := by
  unfold IsStandardScope; infer_instance

instance (C : List CustomClaim) (G : List UserGroup) (s : String) :
    Decidable (IsGranted C G s) := by
  unfold IsGranted; infer_instance

/-! ## Sample data -/

/-- A claim with key `key` owned by the user `user`. -/
def userClaim (user key : String) : CustomClaim :=
  { Key := key, UserID := some user, UserGroupID := none }

/-- A claim with key `key` owned by the group `group`. -/
def groupClaim (group key : String) : CustomClaim :=
  { Key := key, UserID := none, UserGroupID := some group }

/-- A store whose two per-user reads succeed with the claims `C` and the groups `G`
for every user. -/
def storeOf (C : List CustomClaim) (G : List UserGroup) : DB :=
  { findClaims := fun _ _ => Except.ok C
    findGroups := fun _ _ => Except.ok G
    pluckKeys := fun _ => (some [], none) }

/-- A store whose read of the claims fails with `e`. -/
def storeClaimsFail (e : Error) : DB :=
  { findClaims := fun _ _ => Except.error e
    findGroups := fun _ _ => Except.ok []
    pluckKeys := fun _ => (none, some e) }

/-- A store whose read of the claims succeeds with `C` and whose read of the groups
fails with `e`. -/
def storeGroupsFail (C : List CustomClaim) (e : Error) : DB :=
  { findClaims := fun _ _ => Except.ok C
    findGroups := fun _ _ => Except.error e
    pluckKeys := fun _ => (none, some e) }

/-- The scenario of the specification: the user owns a claim `department` and
belongs to a group with a claim `team`. -/
def scenarioClaims : List CustomClaim := [userClaim "U" "department"]

/-- The groups of the scenario of the specification. -/
def scenarioGroups : List UserGroup :=
  [{ ID := "G", CustomClaims := [groupClaim "G" "team"] }]

/-- Own claims with a repeated key. -/
def repeatedClaims : List CustomClaim := [userClaim "U" "team", userClaim "U" "team"]

/-- Groups whose claims repeat keys, within a group, across groups and with the
claims of the user. -/
def repeatedGroups : List UserGroup :=
  [{ ID := "G1", CustomClaims := [groupClaim "G1" "team", groupClaim "G1" "site",
      groupClaim "G1" "site"] },
   { ID := "G2", CustomClaims := [groupClaim "G2" "team"] }]

/-- A service with no store of its own. -/
def bareService : CustomScopeService := NewCustomScopeService none

/-- The context used in the samples. -/
def sampleCtx : Context := { id := 0 }

/-! ## The passes in the other order -/

/-- The variant of lines 45-57 in which the keys of the group claims are inserted before
the keys of the claims of the user. It is not in the source: it serves to state that the
order of the two passes does not matter. -/
def collectScopeSetGroupsFirst (customClaims : List CustomClaim) (userGroups : List UserGroup) :
    List String :=
  addClaimKeys (addGroupClaimKeys [] userGroups) customClaims

/-! ## The query of GetAllCustomScopes -/

/-- Modelled from the spec: the number of rows of the claims table that carry `key`
(the `COUNT(*)` of the group of `key`). -/
def usageCount (table : List CustomClaim) (key : String) : Nat :=
  (table.map (fun row => row.Key)).count key

/-- Modelled from the spec: the groups of `Group("key")`, one per distinct key of the
claims table. -/
def distinctKeys (table : List CustomClaim) : List String :=
  (table.map (fun row => row.Key)).dedup

/-- Modelled from the spec: one step of the ordering of the groups, which puts `key`
before the first key that is carried by fewer rows. -/
def insertByUsage (table : List CustomClaim) (key : String) : List String → List String
  | [] => [key]
  | k :: rest =>
    if usageCount table k < usageCount table key then key :: k :: rest
    else k :: insertByUsage table key rest

/-- Modelled from the spec: the ordering `Order("COUNT(*) DESC")` of the groups. -/
def sortByUsage (table : List CustomClaim) : List String → List String
  | [] => []
  | key :: rest => insertByUsage table key (sortByUsage table rest)

/-- Modelled from the spec: the execution by the store of the query
`Model(&model.CustomClaim{}).Group("key").Order("COUNT(*) DESC").Pluck("key", ...)` on the
claims table `table`, which is not among the sources: "group all custom-claim rows across
the entire system by key, count occurrences per key, and order keys by descending
occurrence count". The order among keys with equal counts is left to the store: it comes
from the order `tie` in which the store walks the groups. -/
def keysByUsage (tie : MapOrder) (table : List CustomClaim) : List String :=
  sortByUsage table (tie.order (distinctKeys table))

/-- A store over the claims table `table` whose query of the keys succeeds. -/
def storeOfTable (tie : MapOrder) (table : List CustomClaim) : DB :=
  { findClaims := fun _ userID => Except.ok (table.filter (fun row => row.UserID = some userID))
    findGroups := fun _ _ => Except.ok []
    pluckKeys := fun _ => (some (keysByUsage tie table), none) }

/-- A claims table in which `team` is carried by two rows and `department` by five. -/
def usageTable : List CustomClaim :=
  [groupClaim "G" "team", userClaim "U1" "department", userClaim "U2" "department",
   groupClaim "H" "team", userClaim "U3" "department", userClaim "U4" "department",
   userClaim "U5" "department"]

/-! ## Lemmas on the loops -/

theorem mem_mapInsert (scopeSet : List String) (key s : String) :
    s ∈ mapInsert scopeSet key ↔ s ∈ scopeSet ∨ s = key := by
  unfold mapInsert
  split
  · constructor
    · intro h; exact Or.inl h
    · rintro (h | h)
      · exact h
      · subst h; assumption
  · simp

theorem nodup_mapInsert (scopeSet : List String) (key : String) (h : scopeSet.Nodup) :
    (mapInsert scopeSet key).Nodup := by
  unfold mapInsert
  split
  · exact h
  · rename_i hk
    rw [List.nodup_append]
    refine ⟨h, List.nodup_singleton key, ?_⟩
    intro a ha hb
    rw [List.mem_singleton] at hb
    subst hb
    exact hk ha

theorem mem_addClaimKeys (C : List CustomClaim) (scopeSet : List String) (s : String) :
    s ∈ addClaimKeys scopeSet C ↔ s ∈ scopeSet ∨ IsClaimKey C s := by
  induction C generalizing scopeSet with
  | nil => simp [addClaimKeys, IsClaimKey]
  | cons c rest ih =>
    rw [addClaimKeys, ih, mem_mapInsert]
    simp only [IsClaimKey, List.mem_cons, exists_eq_or_imp]
    constructor
    · rintro ((h | h) | h)
      · exact Or.inl h
      · exact Or.inr (Or.inl h.symm)
      · exact Or.inr (Or.inr h)
    · rintro (h | h | h)
      · exact Or.inl (Or.inl h)
      · exact Or.inl (Or.inr h.symm)
      · exact Or.inr h

theorem nodup_addClaimKeys (C : List CustomClaim) (scopeSet : List String)
    (h : scopeSet.Nodup) : (addClaimKeys scopeSet C).Nodup := by
  induction C generalizing scopeSet with
  | nil => simpa [addClaimKeys] using h
  | cons c rest ih =>
    rw [addClaimKeys]
    exact ih _ (nodup_mapInsert scopeSet c.Key h)

theorem mem_addGroupClaimKeys (G : List UserGroup) (scopeSet : List String) (s : String) :
    s ∈ addGroupClaimKeys scopeSet G ↔ s ∈ scopeSet ∨ IsGroupClaimKey G s := by
  induction G generalizing scopeSet with
  | nil => simp [addGroupClaimKeys, IsGroupClaimKey]
  | cons g rest ih =>
    rw [addGroupClaimKeys, ih, mem_addClaimKeys]
    simp only [IsGroupClaimKey, IsClaimKey, List.mem_cons, exists_eq_or_imp]
    exact or_assoc

theorem nodup_addGroupClaimKeys (G : List UserGroup) (scopeSet : List String)
    (h : scopeSet.Nodup) : (addGroupClaimKeys scopeSet G).Nodup := by
  induction G generalizing scopeSet with
  | nil => simpa [addGroupClaimKeys] using h
  | cons g rest ih =>
    rw [addGroupClaimKeys]
    exact ih _ (nodup_addClaimKeys g.CustomClaims scopeSet h)

theorem mem_collectScopeSet (C : List CustomClaim) (G : List UserGroup) (s : String) :
    s ∈ collectScopeSet C G ↔ IsCustomScope C G s := by
  unfold collectScopeSet IsCustomScope
  rw [mem_addGroupClaimKeys, mem_addClaimKeys]
  simp

theorem nodup_collectScopeSet (C : List CustomClaim) (G : List UserGroup) :
    (collectScopeSet C G).Nodup :=
  nodup_addGroupClaimKeys G _ (nodup_addClaimKeys C [] List.nodup_nil)

theorem appendKeys_eq (scopes keys : List String) :
    appendKeys scopes keys = scopes ++ keys := by
  induction keys generalizing scopes with
  | nil => simp [appendKeys]
  | cons k rest ih => rw [appendKeys, ih]; simp

theorem toSlice_perm (mo : MapOrder) (scopeSet : List String) :
    (toSlice mo scopeSet).Perm scopeSet := by
  unfold toSlice
  rw [appendKeys_eq]
  simpa using mo.order_perm scopeSet

theorem toSlice_nil (mo : MapOrder) : toSlice mo [] = [] :=
  List.perm_nil.mp (toSlice_perm mo [])

theorem collectScopeSet_of_no_claim (G : List UserGroup)
    (hempty : ∀ g ∈ G, g.CustomClaims = []) : collectScopeSet [] G = [] := by
  unfold collectScopeSet
  simp only [addClaimKeys]
  induction G with
  | nil => rfl
  | cons g rest ih =>
    rw [addGroupClaimKeys, hempty g (List.mem_cons_self g rest), addClaimKeys]
    exact ih (fun g' hg' => hempty g' (List.mem_cons_of_mem g hg'))

theorem mem_toSlice_collect (mo : MapOrder) (C : List CustomClaim) (G : List UserGroup)
    (s : String) : s ∈ toSlice mo (collectScopeSet C G) ↔ IsCustomScope C G s := by
  rw [(toSlice_perm mo _).mem_iff, mem_collectScopeSet]

theorem nodup_toSlice_collect (mo : MapOrder) (C : List CustomClaim) (G : List UserGroup) :
    (toSlice mo (collectScopeSet C G)).Nodup :=
  (toSlice_perm mo _).nodup_iff.mpr (nodup_collectScopeSet C G)

theorem mem_standardScopes (s : String) : s ∈ standardScopes ↔ IsStandardScope s := by
  simp [standardScopes, IsStandardScope]

theorem scanAvailable_eq (requestedScope : String) (validScopes availableScopes : List String) :
    scanAvailable requestedScope validScopes availableScopes =
      if requestedScope ∈ availableScopes then validScopes ++ [requestedScope]
      else validScopes := by
  induction availableScopes with
  | nil => simp [scanAvailable]
  | cons a rest ih =>
    rw [scanAvailable]
    by_cases h : requestedScope = a
    · simp [h]
    · rw [if_neg h, ih]
      simp [h]

theorem filterRequested_eq (availableScopes validScopes requestedScopes : List String) :
    filterRequested availableScopes validScopes requestedScopes =
      validScopes ++ requestedScopes.filter (fun r => decide (r ∈ availableScopes)) := by
  induction requestedScopes generalizing validScopes with
  | nil => simp [filterRequested]
  | cons r rest ih =>
    rw [filterRequested, ih, scanAvailable_eq]
    by_cases h : r ∈ availableScopes
    · simp [h]
    · simp [h]

theorem mem_available (mo : MapOrder) (C : List CustomClaim) (G : List UserGroup) (s : String) :
    s ∈ toSlice mo (collectScopeSet C G) ++ standardScopes ↔ IsGranted C G s := by
  rw [List.mem_append, mem_toSlice_collect, mem_standardScopes]
  rfl

theorem get_of_reads (s : CustomScopeService) (mo : MapOrder) (ctx : Context) (userID : String)
    (db : DB) (C : List CustomClaim) (G : List UserGroup)
    (hC : db.findClaims ctx userID = Except.ok C)
    (hG : db.findGroups ctx userID = Except.ok G) :
    GetCustomScopesForUser s mo ctx userID (some db) =
      GoResult.ret (some (toSlice mo (collectScopeSet C G))) none := by
  simp only [GetCustomScopesForUser, hC, hG]

theorem validate_of_reads (s : CustomScopeService) (mo : MapOrder) (ctx : Context)
    (userID : String) (R : List String) (db : DB) (C : List CustomClaim) (G : List UserGroup)
    (hC : db.findClaims ctx userID = Except.ok C)
    (hG : db.findGroups ctx userID = Except.ok G) :
    ValidateCustomScopes s mo ctx userID R (some db) =
      GoResult.ret (some (R.filter (fun r => decide (IsGranted C G r)))) none := by
  simp only [ValidateCustomScopes, get_of_reads s mo ctx userID db C G hC hG,
    filterRequested_eq, Option.getD_some, List.nil_append]
  congr 2
  apply List.filter_congr
  intro r _
  simp only [mem_available]

/-! ## Theorems on the operations -/

/-- C1: for every user, every request list `R` and every pair of successful reads
(own claims `C`, groups `G` with their claims), `ValidateCustomScopes` returns, with a
nil error, exactly the list obtained by filtering `R`, in order, by the predicate
"the entry is the key of a claim in `C`, or the key of a claim of a group in `G`, or
one of openid, profile, email, groups". -/
theorem validate_eq_filter (s : CustomScopeService) (mo : MapOrder) (ctx : Context)
    (userID : String) (R : List String) (db : DB) (C : List CustomClaim) (G : List UserGroup)
    (hC : db.findClaims ctx userID = Except.ok C)
    (hG : db.findGroups ctx userID = Except.ok G) :
    ValidateCustomScopes s mo ctx userID R (some db) =
      GoResult.ret
        (some (R.filter (fun r => decide
          ((∃ c ∈ C, c.Key = r) ∨ (∃ g ∈ G, ∃ c ∈ g.CustomClaims, c.Key = r) ∨
            r = "openid" ∨ r = "profile" ∨ r = "email" ∨ r = "groups"))))
        none := by
  rw [validate_of_reads s mo ctx userID R db C G hC hG]
  congr 2
  apply List.filter_congr
  intro r _
  simp only [IsGranted, IsCustomScope, IsClaimKey, IsGroupClaimKey, IsStandardScope, or_assoc]

/-- The scenario of the specification for C1: own claim `department`, group claim `team`,
request `[department, team, openid, unknown, department]`. -/
theorem validate_eq_filter_witness :
    ValidateCustomScopes bareService MapOrder.reversed sampleCtx "U"
        ["department", "team", "openid", "unknown", "department"]
        (some (storeOf scenarioClaims scenarioGroups)) =
      GoResult.ret (some ["department", "team", "openid", "department"]) none := by
  rw [validate_eq_filter bareService MapOrder.reversed sampleCtx "U" _
    (storeOf scenarioClaims scenarioGroups) scenarioClaims scenarioGroups rfl rfl]
  decide

/-- C2: for every user and every pair of successful reads (own claims `C`, groups `G`),
`GetCustomScopesForUser` returns a list `l` with a nil error, and a string occurs in `l`
if and only if it is the key of one of the claims in `C` or the key of a claim of one of
the groups in `G`; a standard scope name occurs in `l` only when some claim carries it
as key. -/
theorem get_mem_iff_claim_key (s : CustomScopeService) (mo : MapOrder) (ctx : Context)
    (userID : String) (db : DB) (C : List CustomClaim) (G : List UserGroup)
    (hC : db.findClaims ctx userID = Except.ok C)
    (hG : db.findGroups ctx userID = Except.ok G) :
    ∃ l, GetCustomScopesForUser s mo ctx userID (some db) = GoResult.ret (some l) none ∧
      (∀ k, k ∈ l ↔ (∃ c ∈ C, c.Key = k) ∨ (∃ g ∈ G, ∃ c ∈ g.CustomClaims, c.Key = k)) ∧
      (∀ k ∈ standardScopes, k ∈ l →
        (∃ c ∈ C, c.Key = k) ∨ (∃ g ∈ G, ∃ c ∈ g.CustomClaims, c.Key = k)) := by
  refine ⟨_, get_of_reads s mo ctx userID db C G hC hG, ?_, ?_⟩
  · intro k
    exact mem_toSlice_collect mo C G k
  · intro k _ hk
    exact (mem_toSlice_collect mo C G k).mp hk

/-- The scenario of the specification for C2: own claim `department` and group claim
`team` give the set of `department` and `team`, with no standard scope in it. -/
theorem get_mem_iff_claim_key_witness :
    ∃ l, GetCustomScopesForUser bareService MapOrder.reversed sampleCtx "U"
        (some (storeOf scenarioClaims scenarioGroups)) = GoResult.ret (some l) none ∧
      (∀ k, k ∈ l ↔ k = "department" ∨ k = "team") ∧ "openid" ∉ l := by
  obtain ⟨l, hl, hmem, _⟩ := get_mem_iff_claim_key bareService MapOrder.reversed sampleCtx "U"
    (storeOf scenarioClaims scenarioGroups) scenarioClaims scenarioGroups rfl rfl
  have key : ∀ k, k ∈ l ↔ k = "department" ∨ k = "team" := by
    intro k
    rw [hmem k]
    simp [scenarioClaims, scenarioGroups, userClaim, groupClaim, eq_comm]
  refine ⟨l, hl, key, ?_⟩
  rw [key]
  decide

/-- C3: for every user and every pair of successful reads, the list returned by
`GetCustomScopesForUser` contains no string twice, whatever keys are repeated among
the claims of the user and of the groups. -/
theorem get_nodup (s : CustomScopeService) (mo : MapOrder) (ctx : Context)
    (userID : String) (db : DB) (C : List CustomClaim) (G : List UserGroup)
    (hC : db.findClaims ctx userID = Except.ok C)
    (hG : db.findGroups ctx userID = Except.ok G) :
    ∃ l, GetCustomScopesForUser s mo ctx userID (some db) = GoResult.ret (some l) none ∧
      l.Nodup :=
  ⟨_, get_of_reads s mo ctx userID db C G hC hG, nodup_toSlice_collect mo C G⟩

/-- Sample for C3: the key `team` stands on two claims of the user, on claims of two
groups, and so on both a user claim and a group claim; the key `site` on two claims of
one group. -/
theorem get_nodup_witness :
    ∃ l, GetCustomScopesForUser bareService MapOrder.insertion sampleCtx "U"
        (some (storeOf repeatedClaims repeatedGroups)) = GoResult.ret (some l) none ∧
      l.Nodup ∧ l = ["team", "site"] := by
  obtain ⟨l, hl, hnd⟩ := get_nodup bareService MapOrder.insertion sampleCtx "U"
    (storeOf repeatedClaims repeatedGroups) repeatedClaims repeatedGroups rfl rfl
  refine ⟨l, hl, hnd, ?_⟩
  have h : GetCustomScopesForUser bareService MapOrder.insertion sampleCtx "U"
      (some (storeOf repeatedClaims repeatedGroups)) =
        GoResult.ret (some ["team", "site"]) none := by decide
  rw [h] at hl
  injection hl with h1 _
  injection h1 with h2
  exact h2.symm

/-- C4: for every user and every request list `R`, when the reads succeed the result of
`ValidateCustomScopes` is a sublist of `R` (same relative order) no longer than `R`, a
requested entry that is granted occurs in the result as often as in `R`, no entry occurs
more often than in `R`, and the scan of the availability list for one requested entry
appends at most one entry, also when a name stands twice in that list. -/
theorem validate_sublist (s : CustomScopeService) (mo : MapOrder) (ctx : Context)
    (userID : String) (R : List String) (db : DB) (C : List CustomClaim) (G : List UserGroup)
    (hC : db.findClaims ctx userID = Except.ok C)
    (hG : db.findGroups ctx userID = Except.ok G) :
    ∃ l, ValidateCustomScopes s mo ctx userID R (some db) = GoResult.ret (some l) none ∧
      l.Sublist R ∧ l.length ≤ R.length ∧
      (∀ r, IsGranted C G r → l.count r = R.count r) ∧
      (∀ r, l.count r ≤ R.count r) ∧
      (∀ r validScopes, (scanAvailable r validScopes
          (toSlice mo (collectScopeSet C G) ++ standardScopes)).length
        ≤ validScopes.length + 1) := by
  refine ⟨_, validate_of_reads s mo ctx userID R db C G hC hG, List.filter_sublist R,
    List.length_filter_le _ R, ?_, ?_, ?_⟩
  · intro r hr
    rw [List.count_filter (by simpa using hr)]
  · intro r
    exact (List.filter_sublist R).count_le r
  · intro r validScopes
    rw [scanAvailable_eq]
    split <;> simp

/-- Sample for C4: the user owns a claim with key `openid`, so that `openid` stands twice
in the availability list; each requested `openid` is emitted once. -/
theorem validate_sublist_witness :
    ∃ l, ValidateCustomScopes bareService MapOrder.insertion sampleCtx "U"
        ["openid", "x", "openid"] (some (storeOf [userClaim "U" "openid"] [])) =
          GoResult.ret (some l) none ∧
      l.Sublist ["openid", "x", "openid"] ∧ l = ["openid", "openid"] := by
  obtain ⟨l, hl, hsub, _⟩ := validate_sublist bareService MapOrder.insertion sampleCtx "U"
    ["openid", "x", "openid"] (storeOf [userClaim "U" "openid"] []) [userClaim "U" "openid"] []
    rfl rfl
  refine ⟨l, hl, hsub, ?_⟩
  have h : ValidateCustomScopes bareService MapOrder.insertion sampleCtx "U"
      ["openid", "x", "openid"] (some (storeOf [userClaim "U" "openid"] [])) =
        GoResult.ret (some ["openid", "openid"]) none := by decide
  rw [h] at hl
  injection hl with h1 _
  injection h1 with h2
  exact h2.symm

/-- C5: standard scopes are always granted: for every user, whatever claims and groups
the successful reads return, and for every `S` among openid, profile, email and groups,
`ValidateCustomScopes` on the request `[S]` returns `[S]` and a nil error. -/
theorem validate_standard (s : CustomScopeService) (mo : MapOrder) (ctx : Context)
    (userID : String) (S : String) (db : DB) (C : List CustomClaim) (G : List UserGroup)
    (hC : db.findClaims ctx userID = Except.ok C)
    (hG : db.findGroups ctx userID = Except.ok G)
    (hS : S = "openid" ∨ S = "profile" ∨ S = "email" ∨ S = "groups") :
    ValidateCustomScopes s mo ctx userID [S] (some db) = GoResult.ret (some [S]) none := by
  rw [validate_of_reads s mo ctx userID [S] db C G hC hG]
  have h : IsGranted C G S := Or.inr hS
  simp [h]

/-- Sample for C5: a user with no claim and no group is granted `email`. -/
theorem validate_standard_witness :
    ValidateCustomScopes bareService MapOrder.insertion sampleCtx "U" ["email"]
      (some (storeOf [] [])) = GoResult.ret (some ["email"]) none :=
  validate_standard bareService MapOrder.insertion sampleCtx "U" "email" (storeOf [] []) [] []
    rfl rfl (Or.inr (Or.inr (Or.inl rfl)))

/-- C6: when the reads succeed, a scope `k` that is not the key of a claim of the user,
not the key of a claim of one of the groups and not a standard scope is dropped without
an error: `ValidateCustomScopes` on `[k]` returns the empty list and a nil error; and for
every request list `R` every entry of the result is a custom scope of the user or a
standard scope. -/
theorem validate_drops_unknown (s : CustomScopeService) (mo : MapOrder) (ctx : Context)
    (userID : String) (k : String) (R : List String) (db : DB) (C : List CustomClaim)
    (G : List UserGroup)
    (hC : db.findClaims ctx userID = Except.ok C)
    (hG : db.findGroups ctx userID = Except.ok G)
    (hk : ¬ IsClaimKey C k ∧ ¬ IsGroupClaimKey G k ∧ ¬ IsStandardScope k) :
    ValidateCustomScopes s mo ctx userID [k] (some db) = GoResult.ret (some []) none ∧
      ∃ l, ValidateCustomScopes s mo ctx userID R (some db) = GoResult.ret (some l) none ∧
        ∀ r ∈ l, IsCustomScope C G r ∨ IsStandardScope r := by
  constructor
  · rw [validate_of_reads s mo ctx userID [k] db C G hC hG]
    have h : ¬ IsGranted C G k := by
      rintro ((h | h) | h)
      · exact hk.1 h
      · exact hk.2.1 h
      · exact hk.2.2 h
    simp [h]
  · refine ⟨_, validate_of_reads s mo ctx userID R db C G hC hG, ?_⟩
    intro r hr
    have := (List.mem_filter.mp hr).2
    simpa [IsGranted] using this

/-- The scenario of the specification for C6: the scope `nonexistent_scope_xyz` is
dropped, and a mixed request keeps only granted entries. -/
theorem validate_drops_unknown_witness :
    ValidateCustomScopes bareService MapOrder.reversed sampleCtx "U" ["nonexistent_scope_xyz"]
        (some (storeOf scenarioClaims scenarioGroups)) = GoResult.ret (some []) none ∧
      ∃ l, ValidateCustomScopes bareService MapOrder.reversed sampleCtx "U"
          ["team", "nonexistent_scope_xyz", "profile"]
          (some (storeOf scenarioClaims scenarioGroups)) = GoResult.ret (some l) none ∧
        ∀ r ∈ l, IsCustomScope scenarioClaims scenarioGroups r ∨ IsStandardScope r :=
  validate_drops_unknown bareService MapOrder.reversed sampleCtx "U" "nonexistent_scope_xyz"
    ["team", "nonexistent_scope_xyz", "profile"] (storeOf scenarioClaims scenarioGroups)
    scenarioClaims scenarioGroups rfl rfl (by decide)

/-- C7: `ValidateCustomScopes` fails exactly when its call of `GetCustomScopesForUser`
fails: if that call returns an error `e`, `ValidateCustomScopes` returns the nil slice
and the same `e`; if it returns a nil error, `ValidateCustomScopes` returns a list and a
nil error, for every request list; so one returns an error if and only if the other
does. -/
theorem validate_fails_iff_get_fails (s : CustomScopeService) (mo : MapOrder) (ctx : Context)
    (userID : String) (R : List String) (tx : Option DB) :
    (∀ v e, GetCustomScopesForUser s mo ctx userID tx = GoResult.ret v (some e) →
        ValidateCustomScopes s mo ctx userID R tx = GoResult.ret none (some e)) ∧
      (∀ v, GetCustomScopesForUser s mo ctx userID tx = GoResult.ret v none →
        ∃ l, ValidateCustomScopes s mo ctx userID R tx = GoResult.ret (some l) none) ∧
      ((∃ v e, ValidateCustomScopes s mo ctx userID R tx = GoResult.ret v (some e)) ↔
        ∃ v e, GetCustomScopesForUser s mo ctx userID tx = GoResult.ret v (some e)) := by
  unfold ValidateCustomScopes
  cases hget : GetCustomScopesForUser s mo ctx userID tx with
  | panic => simp
  | ret v err =>
    cases err with
    | none => simp
    | some e => simp

/-- Samples for C7: a store whose first read fails with `boom` makes both operations
return `boom`; with the store of the scenario both return a nil error, on a request of
unknown scopes and on the empty request. -/
theorem validate_fails_iff_get_fails_witness :
    GetCustomScopesForUser bareService MapOrder.insertion sampleCtx "U"
        (some (storeClaimsFail { msg := "boom" })) =
          GoResult.ret none (some { msg := "boom" }) ∧
      ValidateCustomScopes bareService MapOrder.insertion sampleCtx "U" ["openid"]
        (some (storeClaimsFail { msg := "boom" })) =
          GoResult.ret none (some { msg := "boom" }) ∧
      (∃ l, ValidateCustomScopes bareService MapOrder.insertion sampleCtx "U" ["x", "y"]
        (some (storeOf scenarioClaims scenarioGroups)) = GoResult.ret (some l) none) ∧
      (∃ l, ValidateCustomScopes bareService MapOrder.insertion sampleCtx "U" []
        (some (storeOf scenarioClaims scenarioGroups)) = GoResult.ret (some l) none) := by
  have hfail : GetCustomScopesForUser bareService MapOrder.insertion sampleCtx "U"
      (some (storeClaimsFail { msg := "boom" })) =
        GoResult.ret none (some { msg := "boom" }) := rfl
  have hok : GetCustomScopesForUser bareService MapOrder.insertion sampleCtx "U"
      (some (storeOf scenarioClaims scenarioGroups)) =
        GoResult.ret (some (toSlice MapOrder.insertion
          (collectScopeSet scenarioClaims scenarioGroups))) none := rfl
  exact ⟨hfail,
    (validate_fails_iff_get_fails bareService MapOrder.insertion sampleCtx "U" ["openid"]
      (some (storeClaimsFail { msg := "boom" }))).1 _ _ hfail,
    (validate_fails_iff_get_fails bareService MapOrder.insertion sampleCtx "U" ["x", "y"]
      (some (storeOf scenarioClaims scenarioGroups))).2.1 _ hok,
    (validate_fails_iff_get_fails bareService MapOrder.insertion sampleCtx "U" []
      (some (storeOf scenarioClaims scenarioGroups))).2.1 _ hok⟩

/-- C8: `GetCustomScopesForUser` propagates every data-access failure unchanged and has
no fallback value: if the read of the claims fails with `e`, or that read succeeds and
the read of the groups fails with `e`, the operation returns the nil slice and exactly
`e`; and it returns a nil error if and only if both reads succeed. -/
theorem get_propagates_failure (s : CustomScopeService) (mo : MapOrder) (ctx : Context)
    (userID : String) (db : DB) :
    (∀ e, db.findClaims ctx userID = Except.error e →
        GetCustomScopesForUser s mo ctx userID (some db) = GoResult.ret none (some e)) ∧
      (∀ C e, db.findClaims ctx userID = Except.ok C →
        db.findGroups ctx userID = Except.error e →
        GetCustomScopesForUser s mo ctx userID (some db) = GoResult.ret none (some e)) ∧
      ((∃ v, GetCustomScopesForUser s mo ctx userID (some db) = GoResult.ret v none) ↔
        ∃ C G, db.findClaims ctx userID = Except.ok C ∧
          db.findGroups ctx userID = Except.ok G) := by
  cases hC : db.findClaims ctx userID with
  | error e => simp [GetCustomScopesForUser, hC]
  | ok C =>
    cases hG : db.findGroups ctx userID with
    | error e => simp [GetCustomScopesForUser, hC, hG]
    | ok G => simp [GetCustomScopesForUser, hC, hG]

/-- Samples for C8: a failing read of the claims, and a failing read of the groups after
a successful read of the claims, each return the nil slice and the error of the read. -/
theorem get_propagates_failure_witness :
    GetCustomScopesForUser bareService MapOrder.insertion sampleCtx "U"
        (some (storeClaimsFail { msg := "no connection" })) =
          GoResult.ret none (some { msg := "no connection" }) ∧
      GetCustomScopesForUser bareService MapOrder.insertion sampleCtx "U"
        (some (storeGroupsFail scenarioClaims { msg := "bad query" })) =
          GoResult.ret none (some { msg := "bad query" }) :=
  ⟨(get_propagates_failure bareService MapOrder.insertion sampleCtx "U"
      (storeClaimsFail { msg := "no connection" })).1 _ rfl,
    (get_propagates_failure bareService MapOrder.insertion sampleCtx "U"
      (storeGroupsFail scenarioClaims { msg := "bad query" })).2.1 _ _ rfl rfl⟩

/-- C9: for every user for whom both reads succeed, the first with no own claim and the
second with groups none of which has a claim (in particular with no group at all, as for
an identifier of no existing user), `GetCustomScopesForUser` returns the empty, non-nil
slice and a nil error. -/
theorem get_empty (s : CustomScopeService) (mo : MapOrder) (ctx : Context)
    (userID : String) (db : DB) (G : List UserGroup)
    (hC : db.findClaims ctx userID = Except.ok [])
    (hG : db.findGroups ctx userID = Except.ok G)
    (hempty : ∀ g ∈ G, g.CustomClaims = []) :
    GetCustomScopesForUser s mo ctx userID (some db) = GoResult.ret (some []) none := by
  rw [get_of_reads s mo ctx userID db [] G hC hG]
  rw [collectScopeSet_of_no_claim G hempty, toSlice_nil]

/-- Samples for C9: a user with no claim and no group, and a user with no claim in two
groups without claims. -/
theorem get_empty_witness :
    GetCustomScopesForUser bareService MapOrder.reversed sampleCtx "nobody"
        (some (storeOf [] [])) = GoResult.ret (some []) none ∧
      GetCustomScopesForUser bareService MapOrder.reversed sampleCtx "U"
        (some (storeOf [] [{ ID := "G1", CustomClaims := [] }, { ID := "G2", CustomClaims := [] }]))
          = GoResult.ret (some []) none :=
  ⟨get_empty bareService MapOrder.reversed sampleCtx "nobody" (storeOf [] []) [] rfl rfl
      (by simp),
    get_empty bareService MapOrder.reversed sampleCtx "U"
      (storeOf [] [{ ID := "G1", CustomClaims := [] }, { ID := "G2", CustomClaims := [] }])
      [{ ID := "G1", CustomClaims := [] }, { ID := "G2", CustomClaims := [] }] rfl rfl
      (by simp)⟩

/-- C10: for every user and every request list `R`, when the reads succeed, the result of
`ValidateCustomScopes` equals `R` if and only if every entry of `R` is a custom scope of
the user or a standard scope. -/
theorem validate_eq_request_iff (s : CustomScopeService) (mo : MapOrder) (ctx : Context)
    (userID : String) (R : List String) (db : DB) (C : List CustomClaim) (G : List UserGroup)
    (hC : db.findClaims ctx userID = Except.ok C)
    (hG : db.findGroups ctx userID = Except.ok G) :
    ∃ l, ValidateCustomScopes s mo ctx userID R (some db) = GoResult.ret (some l) none ∧
      (l = R ↔ ∀ r ∈ R, IsCustomScope C G r ∨ IsStandardScope r) := by
  refine ⟨_, validate_of_reads s mo ctx userID R db C G hC hG, ?_⟩
  rw [List.filter_eq_self]
  simp [IsGranted]

/-- Samples for C10: a request of granted scopes with a repeated entry comes back as it
is, and a request with one unknown scope does not. -/
theorem validate_eq_request_iff_witness :
    ValidateCustomScopes bareService MapOrder.insertion sampleCtx "U"
        ["team", "groups", "team"] (some (storeOf scenarioClaims scenarioGroups)) =
          GoResult.ret (some ["team", "groups", "team"]) none ∧
      ValidateCustomScopes bareService MapOrder.insertion sampleCtx "U"
        ["team", "unknown"] (some (storeOf scenarioClaims scenarioGroups)) ≠
          GoResult.ret (some ["team", "unknown"]) none := by
  obtain ⟨l, hl, hiff⟩ := validate_eq_request_iff bareService MapOrder.insertion sampleCtx "U"
    ["team", "groups", "team"] (storeOf scenarioClaims scenarioGroups)
    scenarioClaims scenarioGroups rfl rfl
  obtain ⟨l2, hl2, hiff2⟩ := validate_eq_request_iff bareService MapOrder.insertion sampleCtx
    "U" ["team", "unknown"] (storeOf scenarioClaims scenarioGroups)
    scenarioClaims scenarioGroups rfl rfl
  constructor
  · rw [hl, hiff.mpr (by decide)]
  · rw [hl2]
    intro h
    injection h with h1 _
    injection h1 with h2
    have := hiff2.mp h2
    revert this
    decide

/-! ## Lemmas on the order of the data -/

theorem isClaimKey_perm {C C' : List CustomClaim} (h : C.Perm C') (k : String) :
    IsClaimKey C k ↔ IsClaimKey C' k := by
  unfold IsClaimKey
  constructor
  · rintro ⟨c, hc, hk⟩
    exact ⟨c, h.mem_iff.mp hc, hk⟩
  · rintro ⟨c, hc, hk⟩
    exact ⟨c, h.mem_iff.mpr hc, hk⟩

theorem isGroupClaimKey_perm {G G' : List UserGroup} (h : G.Perm G') (k : String) :
    IsGroupClaimKey G k ↔ IsGroupClaimKey G' k := by
  unfold IsGroupClaimKey
  constructor
  · rintro ⟨g, hg, hk⟩
    exact ⟨g, h.mem_iff.mp hg, hk⟩
  · rintro ⟨g, hg, hk⟩
    exact ⟨g, h.mem_iff.mpr hg, hk⟩

theorem isGroupClaimKey_cons (g : UserGroup) (G : List UserGroup) (k : String) :
    IsGroupClaimKey (g :: G) k ↔ IsClaimKey g.CustomClaims k ∨ IsGroupClaimKey G k := by
  simp only [IsGroupClaimKey, IsClaimKey, List.mem_cons, exists_eq_or_imp]

theorem isGroupClaimKey_inner_perm {G G' : List UserGroup}
    (h : List.Forall₂ (fun g g' => g.ID = g'.ID ∧ g.CustomClaims.Perm g'.CustomClaims) G G')
    (k : String) : IsGroupClaimKey G k ↔ IsGroupClaimKey G' k := by
  induction h with
  | nil => exact Iff.rfl
  | cons hg _ ih =>
    rw [isGroupClaimKey_cons, isGroupClaimKey_cons, ih, isClaimKey_perm hg.2]

theorem mem_collectScopeSetGroupsFirst (C : List CustomClaim) (G : List UserGroup)
    (k : String) : k ∈ collectScopeSetGroupsFirst C G ↔ IsCustomScope C G k := by
  unfold collectScopeSetGroupsFirst IsCustomScope
  rw [mem_addClaimKeys, mem_addGroupClaimKeys]
  simp [or_comm]

theorem nodup_collectScopeSetGroupsFirst (C : List CustomClaim) (G : List UserGroup) :
    (collectScopeSetGroupsFirst C G).Nodup :=
  nodup_addClaimKeys C _ (nodup_addGroupClaimKeys G [] List.nodup_nil)

theorem not_granted_of_unknown {C : List CustomClaim} {G : List UserGroup} {k : String}
    (hc : ¬ IsCustomScope C G k) (hs : ¬ IsStandardScope k) : ¬ IsGranted C G k := by
  rintro (h | h)
  · exact hc h
  · exact hs h

/-! ## Theorems on equality, order and the data sources -/

/-- C11: deduplication and membership are by exact string equality. For every user and
every pair of successful reads: whenever the claims of the user, own or of a group, carry
two keys `k1` and `k2` that differ as strings, `GetCustomScopesForUser` returns both, each
exactly once; for every request list `R`, whatever keys the user has, a string is granted
by `ValidateCustomScopes` if and only if it is a requested entry with the same characters
as a custom scope of the user or as a standard scope; and `OpenID` and ` openid` are
dropped unless a claim carries exactly that key. -/
theorem exact_string_equality (s : CustomScopeService) (mo : MapOrder) (ctx : Context)
    (userID : String) (R : List String) (db : DB) (C : List CustomClaim) (G : List UserGroup)
    (hC : db.findClaims ctx userID = Except.ok C)
    (hG : db.findGroups ctx userID = Except.ok G) :
    (∀ k1 k2, IsCustomScope C G k1 → IsCustomScope C G k2 → k1 ≠ k2 →
        ∃ l, GetCustomScopesForUser s mo ctx userID (some db) = GoResult.ret (some l) none ∧
          l.count k1 = 1 ∧ l.count k2 = 1 ∧ 2 ≤ l.length) ∧
      (∃ v, ValidateCustomScopes s mo ctx userID R (some db) = GoResult.ret (some v) none ∧
        ∀ r, r ∈ v ↔ r ∈ R ∧
          ∃ a, (IsCustomScope C G a ∨ IsStandardScope a) ∧ r.data = a.data) ∧
      (∀ r, r = "OpenID" ∨ r = " openid" → ¬ IsCustomScope C G r →
        ValidateCustomScopes s mo ctx userID [r] (some db) = GoResult.ret (some []) none) := by
  refine ⟨?_, ⟨_, validate_of_reads s mo ctx userID R db C G hC hG, ?_⟩, ?_⟩
  · intro k1 k2 h1 h2 hne
    refine ⟨_, get_of_reads s mo ctx userID db C G hC hG, ?_, ?_, ?_⟩
    · exact List.count_eq_one_of_mem (nodup_toSlice_collect mo C G)
        ((mem_toSlice_collect mo C G k1).mpr h1)
    · exact List.count_eq_one_of_mem (nodup_toSlice_collect mo C G)
        ((mem_toSlice_collect mo C G k2).mpr h2)
    · have hsub : [k1, k2].Subperm (toSlice mo (collectScopeSet C G)) := by
        apply List.subperm_of_subset (by simpa using hne)
        intro x hx
        simp only [List.mem_cons, List.mem_singleton, List.not_mem_nil, or_false] at hx
        rcases hx with rfl | rfl
        · exact (mem_toSlice_collect mo C G _).mpr h1
        · exact (mem_toSlice_collect mo C G _).mpr h2
      simpa using hsub.length_le
  · intro r
    rw [List.mem_filter]
    constructor
    · rintro ⟨hr, hg⟩
      exact ⟨hr, r, by simpa [IsGranted] using hg, rfl⟩
    · rintro ⟨hr, a, ha, hra⟩
      have hEq : r = a := String.ext hra
      subst hEq
      exact ⟨hr, by simpa [IsGranted] using ha⟩
  · intro r hr hc
    rw [validate_of_reads s mo ctx userID [r] db C G hC hG]
    have hs : ¬ IsStandardScope r := by
      rcases hr with rfl | rfl <;> decide
    simp [not_granted_of_unknown hc hs]

/-- Samples for C11. A user with the keys `team`, `Team` and ` team`: `team` and `Team` are
two scopes, the request `[OpenID,  openid, openid, TEAM, Team]` is validated to
`[openid, Team]`, `TEAM` is not granted, and `OpenID` alone is dropped. A user with no
claim and no group: ` openid` is dropped. -/
theorem exact_string_equality_witness :
    (∃ l, GetCustomScopesForUser bareService MapOrder.insertion sampleCtx "U"
        (some (storeOf [userClaim "U" "team", userClaim "U" "Team"]
          [{ ID := "G", CustomClaims := [groupClaim "G" " team"] }])) =
            GoResult.ret (some l) none ∧
        l.count "team" = 1 ∧ l.count "Team" = 1 ∧ 2 ≤ l.length) ∧
      (∃ v, ValidateCustomScopes bareService MapOrder.insertion sampleCtx "U"
          ["OpenID", " openid", "openid", "TEAM", "Team"]
          (some (storeOf [userClaim "U" "team", userClaim "U" "Team"]
            [{ ID := "G", CustomClaims := [groupClaim "G" " team"] }])) =
              GoResult.ret (some v) none ∧
        v = ["openid", "Team"] ∧ "TEAM" ∉ v) ∧
      ValidateCustomScopes bareService MapOrder.insertion sampleCtx "U" ["OpenID"]
        (some (storeOf [userClaim "U" "team", userClaim "U" "Team"]
          [{ ID := "G", CustomClaims := [groupClaim "G" " team"] }])) =
            GoResult.ret (some []) none ∧
      ValidateCustomScopes bareService MapOrder.insertion sampleCtx "nobody" [" openid"]
        (some (storeOf [] [])) = GoResult.ret (some []) none := by
  have h := exact_string_equality bareService MapOrder.insertion sampleCtx "U"
    ["OpenID", " openid", "openid", "TEAM", "Team"]
    (storeOf [userClaim "U" "team", userClaim "U" "Team"]
      [{ ID := "G", CustomClaims := [groupClaim "G" " team"] }])
    [userClaim "U" "team", userClaim "U" "Team"]
    [{ ID := "G", CustomClaims := [groupClaim "G" " team"] }] rfl rfl
  have h0 := exact_string_equality bareService MapOrder.insertion sampleCtx "nobody" []
    (storeOf [] []) [] [] rfl rfl
  refine ⟨h.1 "team" "Team" (by decide) (by decide) (by decide), ?_,
    h.2.2 "OpenID" (Or.inl rfl) (by decide), h0.2.2 " openid" (Or.inr rfl) (by decide)⟩
  obtain ⟨v, hv, hmem⟩ := h.2.1
  have e : ValidateCustomScopes bareService MapOrder.insertion sampleCtx "U"
      ["OpenID", " openid", "openid", "TEAM", "Team"]
      (some (storeOf [userClaim "U" "team", userClaim "U" "Team"]
        [{ ID := "G", CustomClaims := [groupClaim "G" " team"] }])) =
          GoResult.ret (some ["openid", "Team"]) none := by decide
  have hv2 : v = ["openid", "Team"] := by
    rw [e] at hv
    injection hv with h1 _
    injection h1 with h2
    exact h2.symm
  refine ⟨v, hv, hv2, ?_⟩
  rw [hv2]
  decide

/-- C12: two calls of `GetCustomScopesForUser` for the same user over the same read
results return the same set of scopes: the two lists are permutations of each other and
have the same members, whatever orders `mo1` and `mo2` the iteration over the map takes
in the two calls. -/
theorem get_idempotent (s : CustomScopeService) (mo1 mo2 : MapOrder) (ctx : Context)
    (userID : String) (db : DB) (C : List CustomClaim) (G : List UserGroup)
    (hC : db.findClaims ctx userID = Except.ok C)
    (hG : db.findGroups ctx userID = Except.ok G) :
    ∃ l1 l2,
      GetCustomScopesForUser s mo1 ctx userID (some db) = GoResult.ret (some l1) none ∧
      GetCustomScopesForUser s mo2 ctx userID (some db) = GoResult.ret (some l2) none ∧
      l1.Perm l2 ∧ ∀ k, k ∈ l1 ↔ k ∈ l2 := by
  have hp : (toSlice mo1 (collectScopeSet C G)).Perm (toSlice mo2 (collectScopeSet C G)) :=
    (toSlice_perm mo1 _).trans (toSlice_perm mo2 _).symm
  exact ⟨_, _, get_of_reads s mo1 ctx userID db C G hC hG,
    get_of_reads s mo2 ctx userID db C G hC hG, hp, fun k => hp.mem_iff⟩

/-- Sample for C12: over the scenario of the specification one call walks the map in the
order of insertion and the other in the reverse order; the lists differ and are
permutations of each other. -/
theorem get_idempotent_witness :
    ∃ l1 l2,
      GetCustomScopesForUser bareService MapOrder.insertion sampleCtx "U"
        (some (storeOf scenarioClaims scenarioGroups)) = GoResult.ret (some l1) none ∧
      GetCustomScopesForUser bareService MapOrder.reversed sampleCtx "U"
        (some (storeOf scenarioClaims scenarioGroups)) = GoResult.ret (some l2) none ∧
      l1.Perm l2 ∧ ∀ k, k ∈ l1 ↔ k ∈ l2 :=
  get_idempotent bareService MapOrder.insertion MapOrder.reversed sampleCtx "U"
    (storeOf scenarioClaims scenarioGroups) scenarioClaims scenarioGroups rfl rfl

/-- C13: the set of scopes of `GetCustomScopesForUser` does not depend on the order
between the two sources or within them. When the reads of a second call return the claims
of the user permuted (`C'`), the groups permuted and the claims inside each group
permuted (`G'`), both calls return lists that are permutations of each other, with the
same members; and inserting the keys of the group claims before the keys of the claims of
the user yields a permutation of the same list. -/
theorem get_order_independent (s : CustomScopeService) (mo mo' : MapOrder) (ctx : Context)
    (userID : String) (db db' : DB) (C C' : List CustomClaim) (G G1 G' : List UserGroup)
    (hC : db.findClaims ctx userID = Except.ok C)
    (hG : db.findGroups ctx userID = Except.ok G)
    (hC' : db'.findClaims ctx userID = Except.ok C')
    (hG' : db'.findGroups ctx userID = Except.ok G')
    (hpC : C.Perm C') (hpG : G.Perm G1)
    (hin : List.Forall₂
      (fun g g' => g.ID = g'.ID ∧ g.CustomClaims.Perm g'.CustomClaims) G1 G') :
    ∃ l l',
      GetCustomScopesForUser s mo ctx userID (some db) = GoResult.ret (some l) none ∧
      GetCustomScopesForUser s mo' ctx userID (some db') = GoResult.ret (some l') none ∧
      l.Perm l' ∧ (∀ k, k ∈ l ↔ k ∈ l') ∧
      l.Perm (toSlice mo' (collectScopeSetGroupsFirst C G)) ∧
      l.Perm (toSlice mo' (collectScopeSetGroupsFirst C' G')) := by
  have hscope : ∀ k, IsCustomScope C G k ↔ IsCustomScope C' G' k := by
    intro k
    unfold IsCustomScope
    rw [isClaimKey_perm hpC, isGroupClaimKey_perm hpG, isGroupClaimKey_inner_perm hin]
  have hmem : ∀ k, k ∈ toSlice mo (collectScopeSet C G) ↔
      k ∈ toSlice mo' (collectScopeSet C' G') := by
    intro k
    rw [mem_toSlice_collect, mem_toSlice_collect, hscope]
  refine ⟨_, _, get_of_reads s mo ctx userID db C G hC hG,
    get_of_reads s mo' ctx userID db' C' G' hC' hG', ?_, hmem, ?_, ?_⟩
  · exact (List.perm_ext_iff_of_nodup (nodup_toSlice_collect mo C G)
      (nodup_toSlice_collect mo' C' G')).mpr hmem
  · refine (List.perm_ext_iff_of_nodup (nodup_toSlice_collect mo C G)
      ((toSlice_perm mo' _).nodup_iff.mpr (nodup_collectScopeSetGroupsFirst C G))).mpr ?_
    intro k
    rw [mem_toSlice_collect, (toSlice_perm mo' _).mem_iff, mem_collectScopeSetGroupsFirst]
  · refine (List.perm_ext_iff_of_nodup (nodup_toSlice_collect mo C G)
      ((toSlice_perm mo' _).nodup_iff.mpr (nodup_collectScopeSetGroupsFirst C' G'))).mpr ?_
    intro k
    rw [mem_toSlice_collect, (toSlice_perm mo' _).mem_iff, mem_collectScopeSetGroupsFirst,
      hscope]

/-- Sample for C13: the claims of the user, the groups and the claims inside a group are
read in another order; the call over the first reads returns `[b, a, x, y, z]`, the call
over the second `[a, b, z, y, x]`, and the groups-first variant `[z, y, x, a, b]`. -/
theorem get_order_independent_witness :
    GetCustomScopesForUser bareService MapOrder.insertion sampleCtx "U"
        (some (storeOf [userClaim "U" "b", userClaim "U" "a"]
          [{ ID := "G1", CustomClaims := [groupClaim "G1" "x", groupClaim "G1" "y"] },
           { ID := "G2", CustomClaims := [groupClaim "G2" "z"] }])) =
        GoResult.ret (some ["b", "a", "x", "y", "z"]) none ∧
      GetCustomScopesForUser bareService MapOrder.insertion sampleCtx "U"
        (some (storeOf [userClaim "U" "a", userClaim "U" "b"]
          [{ ID := "G2", CustomClaims := [groupClaim "G2" "z"] },
           { ID := "G1", CustomClaims := [groupClaim "G1" "y", groupClaim "G1" "x"] }])) =
        GoResult.ret (some ["a", "b", "z", "y", "x"]) none ∧
      toSlice MapOrder.insertion (collectScopeSetGroupsFirst
        [userClaim "U" "a", userClaim "U" "b"]
        [{ ID := "G2", CustomClaims := [groupClaim "G2" "z"] },
         { ID := "G1", CustomClaims := [groupClaim "G1" "y", groupClaim "G1" "x"] }]) =
        ["z", "y", "x", "a", "b"] ∧
      ∃ l l',
        GetCustomScopesForUser bareService MapOrder.insertion sampleCtx "U"
          (some (storeOf [userClaim "U" "b", userClaim "U" "a"]
            [{ ID := "G1", CustomClaims := [groupClaim "G1" "x", groupClaim "G1" "y"] },
             { ID := "G2", CustomClaims := [groupClaim "G2" "z"] }])) =
          GoResult.ret (some l) none ∧
        GetCustomScopesForUser bareService MapOrder.insertion sampleCtx "U"
          (some (storeOf [userClaim "U" "a", userClaim "U" "b"]
            [{ ID := "G2", CustomClaims := [groupClaim "G2" "z"] },
             { ID := "G1", CustomClaims := [groupClaim "G1" "y", groupClaim "G1" "x"] }])) =
          GoResult.ret (some l') none ∧
        l.Perm l' := by
  refine ⟨by decide, by decide, by decide, ?_⟩
  obtain ⟨l, l', h, h', hp, _⟩ := get_order_independent bareService MapOrder.insertion
    MapOrder.insertion sampleCtx "U"
    (storeOf [userClaim "U" "b", userClaim "U" "a"]
      [{ ID := "G1", CustomClaims := [groupClaim "G1" "x", groupClaim "G1" "y"] },
       { ID := "G2", CustomClaims := [groupClaim "G2" "z"] }])
    (storeOf [userClaim "U" "a", userClaim "U" "b"]
      [{ ID := "G2", CustomClaims := [groupClaim "G2" "z"] },
       { ID := "G1", CustomClaims := [groupClaim "G1" "y", groupClaim "G1" "x"] }])
    [userClaim "U" "b", userClaim "U" "a"] [userClaim "U" "a", userClaim "U" "b"]
    [{ ID := "G1", CustomClaims := [groupClaim "G1" "x", groupClaim "G1" "y"] },
     { ID := "G2", CustomClaims := [groupClaim "G2" "z"] }]
    [{ ID := "G2", CustomClaims := [groupClaim "G2" "z"] },
     { ID := "G1", CustomClaims := [groupClaim "G1" "x", groupClaim "G1" "y"] }]
    [{ ID := "G2", CustomClaims := [groupClaim "G2" "z"] },
     { ID := "G1", CustomClaims := [groupClaim "G1" "y", groupClaim "G1" "x"] }]
    rfl rfl rfl rfl (List.Perm.swap _ _ _) (List.Perm.swap _ _ _)
    (List.Forall₂.cons ⟨rfl, List.Perm.refl _⟩
      (List.Forall₂.cons ⟨rfl, List.Perm.swap _ _ _⟩ List.Forall₂.nil))
  exact ⟨l, l', h, h', hp⟩

/-! ## Lemmas on the query of the keys -/

theorem insertByUsage_perm (table : List CustomClaim) (key : String) (keys : List String) :
    (insertByUsage table key keys).Perm (key :: keys) := by
  induction keys with
  | nil => exact List.Perm.refl _
  | cons k rest ih =>
    rw [insertByUsage]
    split
    · exact List.Perm.refl _
    · exact (ih.cons k).trans (List.Perm.swap key k rest)

theorem sortByUsage_perm (table : List CustomClaim) (keys : List String) :
    (sortByUsage table keys).Perm keys := by
  induction keys with
  | nil => exact List.Perm.refl _
  | cons k rest ih =>
    rw [sortByUsage]
    exact (insertByUsage_perm table k _).trans (ih.cons k)

theorem insertByUsage_pairwise (table : List CustomClaim) (key : String) (keys : List String)
    (h : keys.Pairwise (fun a b => usageCount table b ≤ usageCount table a)) :
    (insertByUsage table key keys).Pairwise
      (fun a b => usageCount table b ≤ usageCount table a) := by
  induction keys with
  | nil => simp [insertByUsage]
  | cons k rest ih =>
    rw [List.pairwise_cons] at h
    rw [insertByUsage]
    split
    · rename_i hlt
      rw [List.pairwise_cons]
      refine ⟨?_, List.pairwise_cons.mpr h⟩
      intro y hy
      rcases List.mem_cons.mp hy with rfl | hy
      · exact Nat.le_of_lt hlt
      · exact Nat.le_trans (h.1 y hy) (Nat.le_of_lt hlt)
    · rename_i hge
      rw [List.pairwise_cons]
      refine ⟨?_, ih h.2⟩
      intro y hy
      rcases List.mem_cons.mp ((insertByUsage_perm table key rest).mem_iff.mp hy) with rfl | hy
      · exact Nat.le_of_not_lt hge
      · exact h.1 y hy

theorem sortByUsage_pairwise (table : List CustomClaim) (keys : List String) :
    (sortByUsage table keys).Pairwise
      (fun a b => usageCount table b ≤ usageCount table a) := by
  induction keys with
  | nil => simp [sortByUsage]
  | cons k rest ih =>
    rw [sortByUsage]
    exact insertByUsage_pairwise table k _ ih

theorem keysByUsage_perm (tie : MapOrder) (table : List CustomClaim) :
    (keysByUsage tie table).Perm (distinctKeys table) :=
  (sortByUsage_perm table _).trans (tie.order_perm _)

theorem mem_distinctKeys (table : List CustomClaim) (k : String) :
    k ∈ distinctKeys table ↔ ∃ row ∈ table, row.Key = k := by
  simp [distinctKeys]

theorem indexOf_lt_of_pairwise (table : List CustomClaim) (l : List String) (a b : String)
    (h : l.Pairwise (fun x y => usageCount table y ≤ usageCount table x))
    (ha : a ∈ l) (hlt : usageCount table b < usageCount table a) :
    l.indexOf a < l.indexOf b := by
  have hab : a ≠ b := by
    rintro rfl
    exact Nat.lt_irrefl _ hlt
  induction l with
  | nil => simp at ha
  | cons x rest ih =>
    rw [List.pairwise_cons] at h
    by_cases hxa : x = a
    · rw [List.indexOf_cons_eq _ hxa, List.indexOf_cons_ne _ (by rw [hxa]; exact hab)]
      exact Nat.succ_pos _
    · have ha' : a ∈ rest := by
        rcases List.mem_cons.mp ha with h' | h'
        · exact absurd h'.symm hxa
        · exact h'
      have hxb : x ≠ b := by
        rintro rfl
        exact Nat.lt_irrefl _ (Nat.lt_of_lt_of_le hlt (h.1 a ha'))
      rw [List.indexOf_cons_ne _ hxa, List.indexOf_cons_ne _ hxb]
      exact Nat.succ_lt_succ (ih h.2 ha')

/-! ## Theorems on GetAllCustomScopes and on the handle -/

/-- C14: for every content `table` of the claims table, when the store of the service
answers the query of lines 72-78 (keys grouped by key, ordered by descending count, ties
in any order `tie`), `GetAllCustomScopes` returns, with a nil error, a list in which each
distinct key of the table occurs exactly once and no other string occurs, ordered by
descending number of rows: whenever key `a` is carried by more rows than key `b`, `a`
stands before `b`. -/
theorem all_scopes_by_usage (s : CustomScopeService) (ctx : Context) (db : DB)
    (tie : MapOrder) (table : List CustomClaim)
    (hs : s.db = some db)
    (hq : db.pluckKeys ctx = (some (keysByUsage tie table), none)) :
    ∃ l, GetAllCustomScopes s ctx = GoResult.ret (some l) none ∧
      (∀ k, k ∈ l ↔ ∃ row ∈ table, row.Key = k) ∧
      (∀ row ∈ table, l.count row.Key = 1) ∧
      l.Pairwise (fun a b => usageCount table b ≤ usageCount table a) ∧
      (∀ a b, a ∈ l → b ∈ l → usageCount table b < usageCount table a →
        l.indexOf a < l.indexOf b) := by
  have hmem : ∀ k, k ∈ keysByUsage tie table ↔ ∃ row ∈ table, row.Key = k := by
    intro k
    rw [(keysByUsage_perm tie table).mem_iff, mem_distinctKeys]
  have hnd : (keysByUsage tie table).Nodup :=
    (keysByUsage_perm tie table).nodup_iff.mpr (List.nodup_dedup _)
  have hpw := sortByUsage_pairwise table (tie.order (distinctKeys table))
  refine ⟨keysByUsage tie table, ?_, hmem, ?_, hpw, ?_⟩
  · simp only [GetAllCustomScopes, hs, hq]
  · intro row hrow
    exact List.count_eq_one_of_mem hnd ((hmem _).mpr ⟨row, hrow, rfl⟩)
  · intro a b ha _ hlt
    exact indexOf_lt_of_pairwise table _ a b hpw ha hlt

/-- The sample of the specification for C14: `department` is carried by five rows and
`team` by two, and the store meets the group of `team` first; `department` comes out
before `team`. -/
theorem all_scopes_by_usage_witness :
    usageCount usageTable "department" = 5 ∧ usageCount usageTable "team" = 2 ∧
      GetAllCustomScopes (NewCustomScopeService (some (storeOfTable MapOrder.insertion usageTable)))
        sampleCtx = GoResult.ret (some ["department", "team"]) none ∧
      ∃ l, GetAllCustomScopes
          (NewCustomScopeService (some (storeOfTable MapOrder.insertion usageTable))) sampleCtx =
            GoResult.ret (some l) none ∧
        l.indexOf "department" < l.indexOf "team" := by
  refine ⟨by decide, by decide, by decide, ?_⟩
  obtain ⟨l, hl, hmem, _, _, hidx⟩ := all_scopes_by_usage
    (NewCustomScopeService (some (storeOfTable MapOrder.insertion usageTable))) sampleCtx
    (storeOfTable MapOrder.insertion usageTable) MapOrder.insertion usageTable rfl rfl
  refine ⟨l, hl, hidx "department" "team" ?_ ?_ (by decide)⟩
  · exact (hmem _).mpr ⟨userClaim "U1" "department", by decide, rfl⟩
  · exact (hmem _).mpr ⟨groupClaim "G" "team", by decide, rfl⟩

/-- Counterexample to C15 as stated: a call of `GetCustomScopesForUser` or of
`ValidateCustomScopes` that supplies no handle does not return: the first read is a
method call on the nil handle, at line 22, and the service never falls back on its own
store, even when it has one. -/
theorem nil_handle_panics :
    GetCustomScopesForUser (NewCustomScopeService (some (storeOf scenarioClaims scenarioGroups)))
        MapOrder.insertion sampleCtx "U" none = GoResult.panic ∧
      ValidateCustomScopes (NewCustomScopeService (some (storeOf scenarioClaims scenarioGroups)))
        MapOrder.insertion sampleCtx "U" ["openid"] none = GoResult.panic :=
  ⟨rfl, rfl⟩

/-- C15, amended: the handle is required, not optional. For every service, with or
without a store of its own, every user and every request list, a call of
`GetCustomScopesForUser` or of `ValidateCustomScopes` with a nil `tx` panics: the reads are
issued on `tx` alone and there is no fallback. A call with a handle `db` whose two reads
return completes, and its result is the one these reads determine: when the read of the
claims fails with `e`, or succeeds and the read of the groups fails with `e`, both
operations return the nil list and `e`; when both reads succeed, the first returns a list
of exactly the custom scopes of the user and the second the granted entries of the
request, each with a nil error. -/
theorem handle_required (s : CustomScopeService) (mo : MapOrder) (ctx : Context)
    (userID : String) (R : List String) (db : DB) :
    GetCustomScopesForUser s mo ctx userID none = GoResult.panic ∧
      ValidateCustomScopes s mo ctx userID R none = GoResult.panic ∧
      (∀ e, db.findClaims ctx userID = Except.error e →
        GetCustomScopesForUser s mo ctx userID (some db) = GoResult.ret none (some e) ∧
        ValidateCustomScopes s mo ctx userID R (some db) = GoResult.ret none (some e)) ∧
      (∀ C e, db.findClaims ctx userID = Except.ok C →
        db.findGroups ctx userID = Except.error e →
        GetCustomScopesForUser s mo ctx userID (some db) = GoResult.ret none (some e) ∧
        ValidateCustomScopes s mo ctx userID R (some db) = GoResult.ret none (some e)) ∧
      (∀ C G, db.findClaims ctx userID = Except.ok C →
        db.findGroups ctx userID = Except.ok G →
        (∃ l, GetCustomScopesForUser s mo ctx userID (some db) = GoResult.ret (some l) none ∧
          ∀ k, k ∈ l ↔ IsCustomScope C G k) ∧
        ValidateCustomScopes s mo ctx userID R (some db) =
          GoResult.ret (some (R.filter (fun r => decide (IsGranted C G r)))) none) := by
  refine ⟨rfl, rfl, ?_, ?_, ?_⟩
  · intro e hC
    simp [ValidateCustomScopes, GetCustomScopesForUser, hC]
  · intro C e hC hG
    simp [ValidateCustomScopes, GetCustomScopesForUser, hC, hG]
  · intro C G hC hG
    exact ⟨⟨_, get_of_reads s mo ctx userID db C G hC hG, mem_toSlice_collect mo C G⟩,
      validate_of_reads s mo ctx userID R db C G hC hG⟩

/-- Samples for C15, amended: a service that has a store of its own panics on a nil
handle; with a handle whose read of the groups fails both operations return that error;
with the handle of the scenario the validation returns the granted entries. -/
theorem handle_required_witness :
    ValidateCustomScopes (NewCustomScopeService (some (storeOf scenarioClaims scenarioGroups)))
        MapOrder.reversed sampleCtx "U" ["team"] none = GoResult.panic ∧
      (GetCustomScopesForUser bareService MapOrder.reversed sampleCtx "U"
          (some (storeGroupsFail scenarioClaims { msg := "timeout" })) =
            GoResult.ret none (some { msg := "timeout" }) ∧
        ValidateCustomScopes bareService MapOrder.reversed sampleCtx "U" ["team"]
          (some (storeGroupsFail scenarioClaims { msg := "timeout" })) =
            GoResult.ret none (some { msg := "timeout" })) ∧
      ValidateCustomScopes bareService MapOrder.reversed sampleCtx "U" ["team", "x", "email"]
        (some (storeOf scenarioClaims scenarioGroups)) =
          GoResult.ret (some ["team", "email"]) none := by
  refine ⟨(handle_required
      (NewCustomScopeService (some (storeOf scenarioClaims scenarioGroups)))
      MapOrder.reversed sampleCtx "U" ["team"] (storeOf [] [])).2.1,
    (handle_required bareService MapOrder.reversed sampleCtx "U" ["team"]
      (storeGroupsFail scenarioClaims { msg := "timeout" })).2.2.2.1 _ _ rfl rfl, ?_⟩
  rw [((handle_required bareService MapOrder.reversed sampleCtx "U" ["team", "x", "email"]
    (storeOf scenarioClaims scenarioGroups)).2.2.2.2 scenarioClaims scenarioGroups rfl rfl).2]
  decide

/-- C16: asymmetry of the data sources. Two services `s1` and `s2`, whatever their own
stores, give the same result of `GetCustomScopesForUser` and of `ValidateCustomScopes`
for the same handle `tx`, user and request list; and the result of `GetAllCustomScopes`,
which takes no handle, is the same for two services with the same store. -/
theorem data_source_asymmetry (s1 s2 : CustomScopeService) (mo : MapOrder) (ctx : Context)
    (userID : String) (R : List String) (tx : Option DB) :
    GetCustomScopesForUser s1 mo ctx userID tx = GetCustomScopesForUser s2 mo ctx userID tx ∧
      ValidateCustomScopes s1 mo ctx userID R tx = ValidateCustomScopes s2 mo ctx userID R tx ∧
      (s1.db = s2.db → GetAllCustomScopes s1 ctx = GetAllCustomScopes s2 ctx) := by
  refine ⟨rfl, rfl, ?_⟩
  intro h
  unfold GetAllCustomScopes
  rw [h]

/-- Sample for C16: a service over the table of C14 and a service with no store give the
same validation through the handle of the scenario, and different results of
`GetAllCustomScopes`; two services built on the same store give the same one. -/
theorem data_source_asymmetry_witness :
    ValidateCustomScopes (NewCustomScopeService (some (storeOfTable MapOrder.insertion usageTable)))
        MapOrder.insertion sampleCtx "U" ["team", "x"]
        (some (storeOf scenarioClaims scenarioGroups)) =
      ValidateCustomScopes bareService MapOrder.insertion sampleCtx "U" ["team", "x"]
        (some (storeOf scenarioClaims scenarioGroups)) ∧
      GetAllCustomScopes (NewCustomScopeService (some (storeOfTable MapOrder.insertion usageTable)))
        sampleCtx ≠ GetAllCustomScopes bareService sampleCtx ∧
      GetAllCustomScopes (NewCustomScopeService (some (storeOf [] []))) sampleCtx =
        GetAllCustomScopes { db := some (storeOf [] []) } sampleCtx :=
  ⟨(data_source_asymmetry
      (NewCustomScopeService (some (storeOfTable MapOrder.insertion usageTable))) bareService
      MapOrder.insertion sampleCtx "U" ["team", "x"]
      (some (storeOf scenarioClaims scenarioGroups))).2.1,
    by decide,
    (data_source_asymmetry (NewCustomScopeService (some (storeOf [] [])))
      { db := some (storeOf [] []) } MapOrder.insertion sampleCtx "U" [] none).2.2 rfl⟩

/-- C17: the list returned by `ValidateCustomScopes` is determined by the read results and
the request list. For every request list `R` and any two availability lists `A1` and `A2`
with the same members, in any order and with any multiplicity, the nested loop of lines
95-103 returns the same list; and two calls of `ValidateCustomScopes` that differ only in
the order of the iteration over the map return the same result. -/
theorem validate_order_independent (A1 A2 R : List String) (s : CustomScopeService)
    (mo1 mo2 : MapOrder) (ctx : Context) (userID : String) (tx : Option DB)
    (hA : ∀ k, k ∈ A1 ↔ k ∈ A2) :
    filterRequested A1 [] R = filterRequested A2 [] R ∧
      ValidateCustomScopes s mo1 ctx userID R tx = ValidateCustomScopes s mo2 ctx userID R tx := by
  constructor
  · rw [filterRequested_eq, filterRequested_eq]
    congr 1
    apply List.filter_congr
    intro r _
    simp only [hA r]
  · cases tx with
    | none => rfl
    | some db =>
      cases hC : db.findClaims ctx userID with
      | error e => simp [ValidateCustomScopes, GetCustomScopesForUser, hC]
      | ok C =>
        cases hG : db.findGroups ctx userID with
        | error e => simp [ValidateCustomScopes, GetCustomScopesForUser, hC, hG]
        | ok G =>
          rw [validate_of_reads s mo1 ctx userID R db C G hC hG,
            validate_of_reads s mo2 ctx userID R db C G hC hG]

/-- Sample for C17: the availability lists `[b, openid, a, b]` and `[a, b, openid]` hold
the same strings, and the loop returns `[a, b, a]` for the request `[a, x, b, a]` with
both. -/
theorem validate_order_independent_witness :
    filterRequested ["b", "openid", "a", "b"] [] ["a", "x", "b", "a"] = ["a", "b", "a"] ∧
      filterRequested ["b", "openid", "a", "b"] [] ["a", "x", "b", "a"] =
        filterRequested ["a", "b", "openid"] [] ["a", "x", "b", "a"] ∧
      ValidateCustomScopes bareService MapOrder.insertion sampleCtx "U" ["team", "department"]
          (some (storeOf scenarioClaims scenarioGroups)) =
        ValidateCustomScopes bareService MapOrder.reversed sampleCtx "U" ["team", "department"]
          (some (storeOf scenarioClaims scenarioGroups)) :=
  ⟨by decide,
    (validate_order_independent ["b", "openid", "a", "b"] ["a", "b", "openid"]
      ["a", "x", "b", "a"] bareService MapOrder.insertion MapOrder.reversed sampleCtx "U" none
      (by intro k; simp only [List.mem_cons, List.mem_singleton, List.not_mem_nil]; tauto)).1,
    (validate_order_independent [] [] ["team", "department"] bareService MapOrder.insertion
      MapOrder.reversed sampleCtx "U" (some (storeOf scenarioClaims scenarioGroups))
      (fun _ => Iff.rfl)).2⟩

/-! ## Algebraic properties of the validation -/

theorem isCustomScope_mono {C C' : List CustomClaim} {G G' : List UserGroup}
    (hC : ∀ c ∈ C, c ∈ C')
    (hG : ∀ g ∈ G, ∃ g' ∈ G', g'.ID = g.ID ∧ ∀ c ∈ g.CustomClaims, c ∈ g'.CustomClaims)
    (k : String) (h : IsCustomScope C G k) : IsCustomScope C' G' k := by
  rcases h with ⟨c, hc, hk⟩ | ⟨g, hg, c, hc, hk⟩
  · exact Or.inl ⟨c, hC c hc, hk⟩
  · obtain ⟨g', hg', _, hsub⟩ := hG g hg
    exact Or.inr ⟨g', hg', c, hsub c hc, hk⟩

/-- C18: `ValidateCustomScopes` is idempotent on its request list: for every user, every
request list `R` and fixed successful read results, the validation of `R` returns a list
`l`, and the validation of `l` returns `l` again. -/
theorem validate_idempotent (s : CustomScopeService) (mo : MapOrder) (ctx : Context)
    (userID : String) (R : List String) (db : DB) (C : List CustomClaim) (G : List UserGroup)
    (hC : db.findClaims ctx userID = Except.ok C)
    (hG : db.findGroups ctx userID = Except.ok G) :
    ∃ l, ValidateCustomScopes s mo ctx userID R (some db) = GoResult.ret (some l) none ∧
      ValidateCustomScopes s mo ctx userID l (some db) = GoResult.ret (some l) none := by
  refine ⟨_, validate_of_reads s mo ctx userID R db C G hC hG, ?_⟩
  rw [validate_of_reads s mo ctx userID _ db C G hC hG, List.filter_filter]
  simp

/-- The scenario of the specification for C18: the validated list
`[department, team, openid, department]` is returned unchanged by a second validation. -/
theorem validate_idempotent_witness :
    ValidateCustomScopes bareService MapOrder.insertion sampleCtx "U"
        ["department", "team", "openid", "unknown", "department"]
        (some (storeOf scenarioClaims scenarioGroups)) =
          GoResult.ret (some ["department", "team", "openid", "department"]) none ∧
      ∃ l, ValidateCustomScopes bareService MapOrder.insertion sampleCtx "U"
          ["department", "team", "openid", "unknown", "department"]
          (some (storeOf scenarioClaims scenarioGroups)) = GoResult.ret (some l) none ∧
        ValidateCustomScopes bareService MapOrder.insertion sampleCtx "U" l
          (some (storeOf scenarioClaims scenarioGroups)) = GoResult.ret (some l) none :=
  ⟨by decide,
    validate_idempotent bareService MapOrder.insertion sampleCtx "U"
      ["department", "team", "openid", "unknown", "department"]
      (storeOf scenarioClaims scenarioGroups) scenarioClaims scenarioGroups rfl rfl⟩

/-- C19: each requested entry is decided independently of the others: for every user,
fixed successful read results and all request lists `R1` and `R2`, the validation of
`R1 ++ R2` returns the validation of `R1` followed by the validation of `R2`, and the
validation of the empty request returns the empty, non-nil list. -/
theorem validate_append (s : CustomScopeService) (mo : MapOrder) (ctx : Context)
    (userID : String) (R1 R2 : List String) (db : DB) (C : List CustomClaim)
    (G : List UserGroup)
    (hC : db.findClaims ctx userID = Except.ok C)
    (hG : db.findGroups ctx userID = Except.ok G) :
    (∃ l1 l2,
        ValidateCustomScopes s mo ctx userID R1 (some db) = GoResult.ret (some l1) none ∧
        ValidateCustomScopes s mo ctx userID R2 (some db) = GoResult.ret (some l2) none ∧
        ValidateCustomScopes s mo ctx userID (R1 ++ R2) (some db) =
          GoResult.ret (some (l1 ++ l2)) none) ∧
      ValidateCustomScopes s mo ctx userID [] (some db) = GoResult.ret (some []) none := by
  refine ⟨⟨_, _, validate_of_reads s mo ctx userID R1 db C G hC hG,
    validate_of_reads s mo ctx userID R2 db C G hC hG, ?_⟩, ?_⟩
  · rw [validate_of_reads s mo ctx userID _ db C G hC hG, List.filter_append]
  · rw [validate_of_reads s mo ctx userID [] db C G hC hG]
    rfl

/-- Sample for C19: over the scenario of the specification the request
`[department, unknown] ++ [unknown, team, department]` gives
`[department] ++ [team, department]`. -/
theorem validate_append_witness :
    ValidateCustomScopes bareService MapOrder.insertion sampleCtx "U" ["department", "unknown"]
        (some (storeOf scenarioClaims scenarioGroups)) =
          GoResult.ret (some ["department"]) none ∧
      ValidateCustomScopes bareService MapOrder.insertion sampleCtx "U"
        ["unknown", "team", "department"] (some (storeOf scenarioClaims scenarioGroups)) =
          GoResult.ret (some ["team", "department"]) none ∧
      ValidateCustomScopes bareService MapOrder.insertion sampleCtx "U"
        (["department", "unknown"] ++ ["unknown", "team", "department"])
        (some (storeOf scenarioClaims scenarioGroups)) =
          GoResult.ret (some (["department"] ++ ["team", "department"])) none ∧
      ValidateCustomScopes bareService MapOrder.insertion sampleCtx "U" []
        (some (storeOf scenarioClaims scenarioGroups)) = GoResult.ret (some []) none := by
  obtain ⟨⟨l1, l2, h1, h2, h12⟩, hnil⟩ := validate_append bareService MapOrder.insertion
    sampleCtx "U" ["department", "unknown"] ["unknown", "team", "department"]
    (storeOf scenarioClaims scenarioGroups) scenarioClaims scenarioGroups rfl rfl
  have e1 : ValidateCustomScopes bareService MapOrder.insertion sampleCtx "U"
      ["department", "unknown"] (some (storeOf scenarioClaims scenarioGroups)) =
        GoResult.ret (some ["department"]) none := by decide
  have e2 : ValidateCustomScopes bareService MapOrder.insertion sampleCtx "U"
      ["unknown", "team", "department"] (some (storeOf scenarioClaims scenarioGroups)) =
        GoResult.ret (some ["team", "department"]) none := by decide
  have hl1 : l1 = ["department"] := by
    rw [e1] at h1
    injection h1 with h _
    injection h with h
    exact h.symm
  have hl2 : l2 = ["team", "department"] := by
    rw [e2] at h2
    injection h2 with h _
    injection h with h
    exact h.symm
  rw [hl1, hl2] at h12
  exact ⟨e1, e2, h12, hnil⟩

/-- C20: granting is monotone in the data of the user. If the reads `C'`, `G'` extend the
reads `C`, `G` (every own claim of `C` is in `C'`, and every group of `G` is in `G'` with
at least the same claims), then for every request list `R` the result of
`ValidateCustomScopes` under `C`, `G` is a sublist of the result under `C'`, `G'`, and every
scope returned by `GetCustomScopesForUser` under `C`, `G` is returned under `C'`, `G'`. -/
theorem granting_monotone (s : CustomScopeService) (mo mo' : MapOrder) (ctx : Context)
    (userID : String) (R : List String) (db db' : DB) (C C' : List CustomClaim)
    (G G' : List UserGroup)
    (hC : db.findClaims ctx userID = Except.ok C)
    (hG : db.findGroups ctx userID = Except.ok G)
    (hC' : db'.findClaims ctx userID = Except.ok C')
    (hG' : db'.findGroups ctx userID = Except.ok G')
    (hsubC : ∀ c ∈ C, c ∈ C')
    (hsubG : ∀ g ∈ G, ∃ g' ∈ G', g'.ID = g.ID ∧ ∀ c ∈ g.CustomClaims, c ∈ g'.CustomClaims) :
    (∃ v v',
        ValidateCustomScopes s mo ctx userID R (some db) = GoResult.ret (some v) none ∧
        ValidateCustomScopes s mo' ctx userID R (some db') = GoResult.ret (some v') none ∧
        v.Sublist v') ∧
      (∃ l l',
        GetCustomScopesForUser s mo ctx userID (some db) = GoResult.ret (some l) none ∧
        GetCustomScopesForUser s mo' ctx userID (some db') = GoResult.ret (some l') none ∧
        ∀ k ∈ l, k ∈ l') := by
  refine ⟨⟨_, _, validate_of_reads s mo ctx userID R db C G hC hG,
    validate_of_reads s mo' ctx userID R db' C' G' hC' hG', ?_⟩,
    ⟨_, _, get_of_reads s mo ctx userID db C G hC hG,
      get_of_reads s mo' ctx userID db' C' G' hC' hG', ?_⟩⟩
  · apply List.monotone_filter_right
    intro r hr
    simp only [decide_eq_true_eq] at hr ⊢
    rcases hr with hr | hr
    · exact Or.inl (isCustomScope_mono hsubC hsubG r hr)
    · exact Or.inr hr
  · intro k hk
    rw [mem_toSlice_collect] at hk ⊢
    exact isCustomScope_mono hsubC hsubG k hk

/-- Sample for C20: the user of the scenario gains the claim `site` and a claim `room` in
the group; the request `[site, team, room, department]` gives `[team, department]` before
and the whole request after. -/
theorem granting_monotone_witness :
    ValidateCustomScopes bareService MapOrder.insertion sampleCtx "U"
        ["site", "team", "room", "department"]
        (some (storeOf scenarioClaims scenarioGroups)) =
          GoResult.ret (some ["team", "department"]) none ∧
      ValidateCustomScopes bareService MapOrder.insertion sampleCtx "U"
        ["site", "team", "room", "department"]
        (some (storeOf (userClaim "U" "site" :: scenarioClaims)
          [{ ID := "G", CustomClaims := [groupClaim "G" "room", groupClaim "G" "team"] }])) =
          GoResult.ret (some ["site", "team", "room", "department"]) none ∧
      ∃ v v',
        ValidateCustomScopes bareService MapOrder.insertion sampleCtx "U"
          ["site", "team", "room", "department"]
          (some (storeOf scenarioClaims scenarioGroups)) = GoResult.ret (some v) none ∧
        ValidateCustomScopes bareService MapOrder.insertion sampleCtx "U"
          ["site", "team", "room", "department"]
          (some (storeOf (userClaim "U" "site" :: scenarioClaims)
            [{ ID := "G", CustomClaims := [groupClaim "G" "room", groupClaim "G" "team"] }])) =
            GoResult.ret (some v') none ∧
        v.Sublist v' :=
  ⟨by decide, by decide,
    (granting_monotone bareService MapOrder.insertion MapOrder.insertion sampleCtx "U"
      ["site", "team", "room", "department"] (storeOf scenarioClaims scenarioGroups)
      (storeOf (userClaim "U" "site" :: scenarioClaims)
        [{ ID := "G", CustomClaims := [groupClaim "G" "room", groupClaim "G" "team"] }])
      scenarioClaims (userClaim "U" "site" :: scenarioClaims) scenarioGroups
      [{ ID := "G", CustomClaims := [groupClaim "G" "room", groupClaim "G" "team"] }]
      rfl rfl rfl rfl (by decide) (by decide)).1⟩

end CustomScope
